import Mathlib

/-
  Shallow embedding of the libgossip membership core
  (src/src/core/gossip_core.cpp, src/include/core/gossip_core.hpp).

  Modelling conventions:
  - node_id_t is a 16-byte opaque identifier compared only for equality;
    it is modelled as Nat.
  - time_point (std::chrono::steady_clock::time_point) is modelled as Nat
    milliseconds; duration_cast<milliseconds> subtraction is modelled as
    subtraction over Int (so a non-elapsed interval compares like the
    signed chrono value).
  - uint64_t counters (heartbeat, config_epoch, version, timestamp) are
    modelled as Nat; the modelled scenarios stay far below 2^64 so the
    wraparound of unsigned arithmetic is not modelled.  int fields
    (port, suspicion_count) are modelled as Int.
  - std::map<std::string, std::string> metadata is modelled as an
    association list; the claims never inspect it beyond equality.
  - The send_callback / event_callback side effects are modelled by
    returning the list of (message, target) pairs handed to SEND and the
    list of (node, old_status) pairs handed to EVENT.  The nullness of
    event_fn_ is the boolean has_event_fn_; a null send_fn_ is rejected
    by the constructor, so past construction SEND always exists.
  - std::shuffle's randomness in select_random_peers is modelled by an
    explicit permutation parameter `perm` supplied by the caller.
  - The C++ `node_view *sender` pointer into the std::list nodes_ is
    modelled by "first element whose id matches" (findById / modifyById):
    the pointed-to element is the first match found at lines 130-135 or
    the freshly appended element (lines 138-145), and no operation during
    handle_message changes any element's id, so the pointer always
    denotes the first occurrence of msg.sender in nodes_.
-/

namespace libgossip

abbrev node_id_t := Nat

abbrev time_point := Nat

inductive node_status where
  | unknown
  | joining
  | online
  | suspect
  | failed
deriving DecidableEq

inductive message_type where
  | ping
  | pong
  | meet
  | join
  | leave
  | update
deriving DecidableEq

/-- node_view (gossip_core.hpp lines 96-141); default field values mirror the
C++ in-class initializers. -/
structure node_view where
  id : node_id_t := 0
  ip : String := ""
  port : Int := 0
  config_epoch : Nat := 0
  heartbeat : Nat := 0
  version : Nat := 0
  seen_time : time_point := 0
  status : node_status := node_status.unknown
  role : String := ""
  region : String := ""
  metadata : List (String × String) := []
  suspicion_count : Int := 0
  last_suspected : time_point := 0
deriving DecidableEq

instance : Inhabited node_view := ⟨{}⟩

/-- gossip_message (gossip_core.hpp lines 161-178). -/
structure gossip_message where
  sender : node_id_t := 0
  type : message_type := message_type.ping
  timestamp : Nat := 0
  entries : List node_view := []
deriving DecidableEq

/-- Accumulated SEND callback invocations: (message, target) pairs. -/
abbrev sends_t := List (gossip_message × node_view)

/-- Accumulated EVENT callback invocations: (node, old_status) pairs. -/
abbrev events_t := List (node_view × node_status)

/-- node_view::newer_than (gossip_core.cpp lines 14-18). -/
def node_view.newer_than (a b : node_view) : Bool :=
  if a.heartbeat > b.heartbeat then true
  else if a.heartbeat < b.heartbeat then false
  else decide (a.config_epoch > b.config_epoch)

/-- node_view::can_replace (gossip_core.cpp lines 20-24). -/
def node_view.can_replace (a b : node_view) : Bool :=
  if a.config_epoch > b.config_epoch then true
  else if a.config_epoch < b.config_epoch then false
  else decide (a.heartbeat > b.heartbeat)

/-- First element of the list whose id equals the given id (the std::find_if
pattern of gossip_core.cpp lines 130-135, 206-207, 327-328). -/
def findById : List node_view → node_id_t → Option node_view
  | [], _ => none
  | n :: rest, i => if n.id = i then some n else findById rest i

/-- Replace the first element whose id equals the given id (mutation through
an iterator or pointer into the std::list). -/
def modifyById : List node_view → node_id_t → (node_view → node_view) → List node_view
  | [], _, _ => []
  | n :: rest, i, f => if n.id = i then f n :: rest else n :: modifyById rest i f

/-- gossip_core::notify (gossip_core.cpp lines 362-366): EVENT fires only when
the callback is non-null and the status actually differs. -/
def notifyEv (ev : Bool) (n : node_view) (old : node_status) : events_t :=
  if ev ∧ n.status ≠ old then [(n, old)] else []

/-- Avoid UNKNOWN → UNKNOWN (gossip_core.cpp lines 334-337 and 349-351). -/
def coerce_status (n : node_view) : node_view :=
  if n.status = node_status.unknown then { n with status := node_status.joining } else n

/-- gossip_core::update_node (gossip_core.cpp lines 326-359): insert a copy of
the remote view when the id is new, otherwise overwrite the local entry
wholesale when remote.can_replace(local). -/
def update_node (ev : Bool) (remote : node_view) (seen : time_point) :
    List node_view → List node_view × events_t
  | [] =>
      let nv := coerce_status { remote with seen_time := seen }
      ([nv], notifyEv ev nv node_status.unknown)
  | n :: rest =>
      if n.id = remote.id then
        let n2 := if node_view.can_replace remote n
                  then coerce_status { remote with seen_time := seen }
                  else n
        (n2 :: rest, if n.status ≠ n2.status then notifyEv ev n2 n.status else [])
      else
        let p := update_node ev remote seen rest
        (n :: p.1, p.2)

/-- The entries loop of gossip_core::handle_message (gossip_core.cpp
lines 179-182): fold update_node over the carried entries. -/
def merge_entries (ev : Bool) (seen : time_point) (nodes : List node_view) :
    List node_view → List node_view × events_t
  | [] => (nodes, [])
  | e :: rest =>
      let r := update_node ev e seen nodes
      let r2 := merge_entries ev seen r.1 rest
      (r2.1, r.2 ++ r2.2)

/-- gossip_core::select_random_peers (gossip_core.cpp lines 298-324); the
std::shuffle with per-call fresh entropy is modelled by the permutation
parameter perm. -/
def select_random_peers (perm : List node_view → List node_view)
    (nodes : List node_view) (k : Nat) (exclude : Option node_id_t) :
    List node_view :=
  let candidates := nodes.filter fun n =>
    match exclude with
    | some e => decide (¬ n.id = e)
    | none => true
  if candidates.isEmpty then []
  else
    let shuffled := perm candidates
    shuffled.take (min k shuffled.length)

/-- Net effect on the sender's node_view of gossip_core.cpp lines 152-177
(heartbeat max, seen_time, version bump, suspicion reset, joining→online,
leave→failed), together with the EVENT invocations those lines perform. -/
def sender_update_view (ev : Bool) (msg : gossip_message) (recv : time_point)
    (s : node_view) : node_view × events_t :=
  let old := s.status
  let s1 := if msg.timestamp > s.heartbeat then { s with heartbeat := msg.timestamp } else s
  let s2 := { s1 with seen_time := recv, version := s1.version + 1 }
  let s3 := if s2.status = node_status.suspect then { s2 with suspicion_count := 0 } else s2
  let s4e :=
    if s3.status = node_status.joining then
      let t := { s3 with status := node_status.online }
      (t, notifyEv ev t old)
    else (s3, ([] : events_t))
  let s5e :=
    if msg.type = message_type.leave ∧ s4e.1.status ≠ node_status.failed then
      let t := { s4e.1 with status := node_status.failed }
      (t, notifyEv ev t old)
    else (s4e.1, ([] : events_t))
  (s5e.1, s4e.2 ++ s5e.2)

/-- The sender-update step of handle_message applied through the sender
pointer (first occurrence of msg.sender in nodes_). -/
def sender_update (ev : Bool) (msg : gossip_message) (recv : time_point)
    (nodes : List node_view) : List node_view × events_t :=
  match findById nodes msg.sender with
  | none => (nodes, [])
  | some s =>
      let r := sender_update_view ev msg recv s
      (modifyById nodes msg.sender (fun _ => r.1), r.2)

/-- Result of locating the sender (gossip_core.cpp lines 127-145): found in
the table, or upserted from a MEET/JOIN message's entries, or not located. -/
structure locate_result where
  located : Bool
  nodes : List node_view
  evs : events_t
deriving DecidableEq

/-- Sender location of gossip_core::handle_message (lines 127-145). -/
def locate_sender (ev : Bool) (nodes : List node_view) (msg : gossip_message)
    (recv : time_point) : locate_result :=
  match findById nodes msg.sender with
  | some _ => ⟨true, nodes, []⟩
  | none =>
      if (msg.type = message_type.meet ∨ msg.type = message_type.join) ∧
          msg.entries ≠ [] then
        match findById msg.entries msg.sender with
        | some e =>
            let r := update_node ev e recv nodes
            ⟨true, r.1, r.2⟩
        | none => ⟨false, nodes, []⟩
      else ⟨false, nodes, []⟩

/-- gossip_core state (gossip_core.hpp lines 295-308).  The two callback
std::functions are replaced by the recorded side-effect lists of each
operation; has_event_fn_ records whether event_fn_ is non-null. -/
structure gossip_core where
  self_ : node_view
  nodes_ : List node_view
  has_event_fn_ : Bool
  heartbeat_interval_ : Nat
  failure_timeout_ : Nat
  gossip_nodes_ : Nat
  sync_nodes_ : Nat
  sent_messages_ : Nat
  received_messages_ : Nat
deriving DecidableEq

/-- gossip_core::gossip_core (gossip_core.cpp lines 30-37): throws
std::invalid_argument when the send callback is null, otherwise forces the
self view online and stamps seen_time. -/
def gossip_core.construct (self : node_view) (send_is_null : Bool)
    (has_event : Bool) (now : time_point) : Except String gossip_core :=
  if send_is_null then Except.error "send_callback cannot be null"
  else Except.ok
    { self_ := { self with status := node_status.online, seen_time := now }
      nodes_ := []
      has_event_fn_ := has_event
      heartbeat_interval_ := 100
      failure_timeout_ := 2000
      gossip_nodes_ := 3
      sync_nodes_ := 2
      sent_messages_ := 0
      received_messages_ := 0 }

/-- gossip_core::handle_message (gossip_core.cpp lines 125-199). -/
def gossip_core.handle_message (perm : List node_view → List node_view)
    (c : gossip_core) (msg : gossip_message) (recv_time : time_point) :
    gossip_core × sends_t × events_t :=
  let c1 : gossip_core := { c with received_messages_ := c.received_messages_ + 1 }
  let loc := locate_sender c1.has_event_fn_ c1.nodes_ msg recv_time
  if loc.located = false ∧ msg.type ≠ message_type.meet ∧
      msg.type ≠ message_type.join then
    (c1, [], [])
  else
    let su := if loc.located then sender_update c1.has_event_fn_ msg recv_time loc.nodes
              else (loc.nodes, ([] : events_t))
    let me := merge_entries c1.has_event_fn_ recv_time su.1 msg.entries
    let evs := loc.evs ++ su.2 ++ me.2
    if (msg.type = message_type.ping ∨ msg.type = message_type.meet ∨
        msg.type = message_type.join) ∧ loc.located then
      let target := (findById me.1 msg.sender).getD default
      let extras := select_random_peers perm me.1 c1.sync_nodes_ (some msg.sender)
      let pong : gossip_message :=
        { sender := c1.self_.id, type := message_type.pong,
          timestamp := c1.self_.heartbeat, entries := c1.self_ :: extras }
      ({ c1 with nodes_ := me.1, sent_messages_ := c1.sent_messages_ + 1 },
       [(pong, target)], evs)
    else
      ({ c1 with nodes_ := me.1 }, [], evs)

/-- One step of the failure-detection pass of gossip_core::tick
(gossip_core.cpp lines 66-91); the repeated clock::now() reads inside one
tick are modelled by the single instant now. -/
def fd_step (ev : Bool) (timeout : Nat) (now : time_point) (n : node_view) :
    node_view × events_t :=
  if n.status = node_status.online then
    if (now : Int) - (n.seen_time : Int) ≥ (timeout : Int) then
      let n2 := { n with status := node_status.suspect,
                         suspicion_count := n.suspicion_count + 1,
                         last_suspected := now }
      (n2, notifyEv ev n2 node_status.online)
    else (n, [])
  else if n.status = node_status.suspect then
    if (now : Int) - (n.last_suspected : Int) ≥ (timeout : Int) then
      let n1 := { n with suspicion_count := n.suspicion_count + 1,
                         last_suspected := now }
      if n1.suspicion_count > 3 then
        let n2 := { n1 with status := node_status.failed }
        (n2, notifyEv ev n2 node_status.suspect)
      else (n1, [])
    else (n, [])
  else (n, [])

/-- The failure-detection loop over all peers (gossip_core.cpp line 66). -/
def fd_pass (ev : Bool) (timeout : Nat) (now : time_point) :
    List node_view → List node_view × events_t
  | [] => ([], [])
  | n :: rest =>
      let r := fd_step ev timeout now n
      let rr := fd_pass ev timeout now rest
      (r.1 :: rr.1, r.2 ++ rr.2)

/-- gossip_core::tick (gossip_core.cpp lines 39-96). -/
def gossip_core.tick (perm : List node_view → List node_view)
    (c : gossip_core) (now : time_point) : gossip_core × sends_t × events_t :=
  let self1 := { c.self_ with seen_time := now }
  let targets := select_random_peers perm c.nodes_ c.gossip_nodes_ (some self1.id)
  let sends := targets.map fun target =>
    let extras := select_random_peers perm c.nodes_ c.sync_nodes_ (some target.id)
    ({ sender := self1.id, type := message_type.ping, timestamp := self1.heartbeat,
       entries := self1 :: extras }, target)
  let self2 := { self1 with heartbeat := self1.heartbeat + 1,
                            version := self1.version + 1 }
  let fd := fd_pass c.has_event_fn_ c.failure_timeout_ now c.nodes_
  ({ c with self_ := self2, nodes_ := fd.1,
            sent_messages_ := c.sent_messages_ + targets.length }, sends, fd.2)

/-- gossip_core::meet (gossip_core.cpp lines 202-224). -/
def gossip_core.meet (c : gossip_core) (node : node_view) (now : time_point) :
    gossip_core × sends_t × events_t :=
  if node.id = c.self_.id then (c, [], [])
  else
    let ins :=
      match findById c.nodes_ node.id with
      | some _ => (c.nodes_, ([] : events_t))
      | none =>
          let nv := { node with status := node_status.joining, seen_time := now }
          (c.nodes_ ++ [nv], notifyEv c.has_event_fn_ nv node_status.unknown)
    let msg : gossip_message :=
      { sender := c.self_.id, type := message_type.meet,
        timestamp := c.self_.heartbeat, entries := [c.self_] }
    ({ c with nodes_ := ins.1, sent_messages_ := c.sent_messages_ + 1 },
     [(msg, node)], ins.2)

/-- The operations of the core exercised by the claims, as a single step
relation input. -/
inductive core_op where
  | tick_op (now : time_point)
  | handle_op (msg : gossip_message) (recv : time_point)
  | meet_op (n : node_view) (now : time_point)

/-- Run one core operation. -/
def gossip_core.run (perm : List node_view → List node_view) (c : gossip_core) :
    core_op → gossip_core × sends_t × events_t
  | core_op.tick_op now => gossip_core.tick perm c now
  | core_op.handle_op msg recv => gossip_core.handle_message perm c msg recv
  | core_op.meet_op n now => gossip_core.meet c n now

/-- The ordering pair used by can_replace: pLe a b says the
(config_epoch, heartbeat) pair of a is lexicographically at most that of b. -/
def pLe (a b : node_view) : Prop :=
  a.config_epoch < b.config_epoch ∨
    (a.config_epoch = b.config_epoch ∧ a.heartbeat ≤ b.heartbeat)

instance (a b : node_view) : Decidable (pLe a b) := by
  unfold pLe
  exact inferInstance

/-- The table after the second application agrees with the table after the
first, except the sender's entry, which can change only in its heartbeat,
version, status and suspicion_count fields. -/
def table_agrees_except_sender (sender : node_id_t) (l1 l2 : List node_view) : Prop :=
  l2.length = l1.length ∧
  ∀ (i : Nat) (a b : node_view), l1.get? i = some a → l2.get? i = some b →
    b.id = a.id ∧ b.ip = a.ip ∧ b.port = a.port ∧ b.config_epoch = a.config_epoch ∧
    b.seen_time = a.seen_time ∧ b.role = a.role ∧ b.region = a.region ∧
    b.metadata = a.metadata ∧ b.last_suspected = a.last_suspected ∧
    (a.id ≠ sender → b = a)

/-- Identity permutation, used to instantiate the shuffle parameter of
select_random_peers in concrete runs. -/
def idPerm : List node_view → List node_view := fun l => l

/-- A fresh self view with id 1 handed to the constructor. -/
def selfView : node_view := { id := 1 }

/-- The core produced by construct(selfView, SEND non-null, EVENT non-null)
at local time 0. -/
def baseCore : gossip_core :=
  { self_ := { id := 1, status := node_status.online, seen_time := 0 }
    nodes_ := []
    has_event_fn_ := true
    heartbeat_interval_ := 100
    failure_timeout_ := 2000
    gossip_nodes_ := 3
    sync_nodes_ := 2
    sent_messages_ := 0
    received_messages_ := 0 }

/-- baseCore after meet({id 2}) at time 0: peer 2 is joining. -/
def meetCore : gossip_core := (gossip_core.meet baseCore { id := 2 } 0).1

/-- meetCore after a ping from peer 2 (heartbeat 1) at time 0: peer 2 is
online. -/
def onlineCore : gossip_core :=
  (gossip_core.handle_message idPerm meetCore
    { sender := 2, type := message_type.ping, timestamp := 1 } 0).1

/-- onlineCore after tick at time 2000: peer 2 timed out and is suspect with
suspicion_count 1. -/
def suspectCore : gossip_core := (gossip_core.tick idPerm onlineCore 2000).1

theorem pLe_refl (a : node_view) : pLe a a := Or.inr ⟨rfl, le_refl _⟩

theorem pLe_trans {a b c : node_view} (h1 : pLe a b) (h2 : pLe b c) : pLe a c := by
  unfold pLe at *
  omega

theorem pLe_config_epoch {a b : node_view} (h : pLe a b) :
    a.config_epoch ≤ b.config_epoch := by
  unfold pLe at h
  omega

theorem can_replace_eq_false_iff (a b : node_view) :
    node_view.can_replace a b = false ↔ pLe a b := by
  unfold node_view.can_replace pLe
  split_ifs with h1 h2 <;> simp <;> omega

theorem can_replace_eq_true_iff (a b : node_view) :
    node_view.can_replace a b = true ↔
      (b.config_epoch < a.config_epoch ∨
        (b.config_epoch = a.config_epoch ∧ b.heartbeat < a.heartbeat)) := by
  unfold node_view.can_replace
  split_ifs with h1 h2 <;> simp <;> omega

theorem can_replace_true_pLe {a b : node_view}
    (h : node_view.can_replace a b = true) : pLe b a := by
  rw [can_replace_eq_true_iff] at h
  unfold pLe
  omega

theorem findById_some_id : ∀ {nodes : List node_view} {x : node_id_t} {v : node_view},
    findById nodes x = some v → v.id = x
  | [], _, _, h => by simp [findById] at h
  | n :: rest, x, v, h => by
      by_cases hid : n.id = x
      · rw [findById, if_pos hid] at h
        cases h
        exact hid
      · rw [findById, if_neg hid] at h
        exact findById_some_id h

theorem findById_none_forall : ∀ {nodes : List node_view} {x : node_id_t},
    findById nodes x = none → ∀ v ∈ nodes, v.id ≠ x
  | [], _, _ => by simp
  | n :: rest, x, h => by
      by_cases hid : n.id = x
      · rw [findById, if_pos hid] at h
        cases h
      · rw [findById, if_neg hid] at h
        intro v hv
        rw [List.mem_cons] at hv
        rcases hv with rfl | hv
        · exact hid
        · exact findById_none_forall h v hv

theorem findById_coerce_id (n : node_view) : (coerce_status n).id = n.id := by
  unfold coerce_status
  split <;> rfl

theorem coerce_status_epoch_heartbeat (n : node_view) :
    (coerce_status n).config_epoch = n.config_epoch ∧
    (coerce_status n).heartbeat = n.heartbeat ∧
    (coerce_status n).seen_time = n.seen_time := by
  unfold coerce_status
  split <;> exact ⟨rfl, rfl, rfl⟩

theorem modifyById_length : ∀ (nodes : List node_view) (x : node_id_t)
    (f : node_view → node_view), (modifyById nodes x f).length = nodes.length
  | [], _, _ => rfl
  | n :: rest, x, f => by
      by_cases hid : n.id = x
      · rw [modifyById, if_pos hid]
        simp
      · rw [modifyById, if_neg hid]
        simp [modifyById_length rest x f]

theorem modifyById_findById_other {x y : node_id_t} (hxy : y ≠ x)
    (hf : ∀ n, (f n).id = x) : ∀ (nodes : List node_view),
    findById (modifyById nodes x f) y = findById nodes y
  | [] => rfl
  | n :: rest => by
      by_cases hid : n.id = x
      · rw [modifyById, if_pos hid]
        rw [findById, if_neg (by rw [hf n]; exact fun h => hxy h.symm)]
        rw [findById, if_neg (by rw [hid]; exact fun h => hxy h.symm)]
      · rw [modifyById, if_neg hid]
        rw [findById, findById]
        by_cases hy : n.id = y
        · rw [if_pos hy, if_pos hy]
        · rw [if_neg hy, if_neg hy]
          exact modifyById_findById_other hxy hf rest

theorem modifyById_findById_self {x : node_id_t} {f : node_view → node_view}
    (hf : ∀ n, (f n).id = x) : ∀ {nodes : List node_view} {v : node_view},
    findById nodes x = some v →
    findById (modifyById nodes x f) x = some (f v)
  | [], v, h => by simp [findById] at h
  | n :: rest, v, h => by
      by_cases hid : n.id = x
      · rw [findById, if_pos hid] at h
        cases h
        rw [modifyById, if_pos hid, findById, if_pos (hf n)]
      · rw [findById, if_neg hid] at h
        rw [modifyById, if_neg hid, findById, if_neg hid]
        exact modifyById_findById_self hf h

theorem modifyById_get? {x : node_id_t} {f : node_view → node_view} :
    ∀ {nodes : List node_view} {i : Nat} {a : node_view},
    nodes.get? i = some a →
    (modifyById nodes x f).get? i = some a ∨
      (a.id = x ∧ findById nodes x = some a ∧
        (modifyById nodes x f).get? i = some (f a))
  | [], i, a, h => by simp at h
  | n :: rest, 0, a, h => by
      simp only [List.get?] at h
      cases h
      by_cases hid : n.id = x
      · right
        exact ⟨hid, by rw [findById, if_pos hid], by rw [modifyById, if_pos hid]; rfl⟩
      · left
        rw [modifyById, if_neg hid]
        rfl
  | n :: rest, i + 1, a, h => by
      simp only [List.get?] at h
      by_cases hid : n.id = x
      · left
        rw [modifyById, if_pos hid]
        simpa using h
      · rcases @modifyById_get? x f rest i a h with h' | ⟨ha, hfind, h'⟩
        · left
          rw [modifyById, if_neg hid]
          simpa using h'
        · right
          refine ⟨ha, ?_, ?_⟩
          · rw [findById, if_neg hid]
            exact hfind
          · rw [modifyById, if_neg hid]
            simpa using h'

theorem update_node_stable {ev : Bool} {remote : node_view} {seen : time_point} :
    ∀ {nodes : List node_view} {v : node_view},
    findById nodes remote.id = some v → pLe remote v →
    update_node ev remote seen nodes = (nodes, [])
  | [], v, h, _ => by simp [findById] at h
  | n :: rest, v, h, hp => by
      by_cases hid : n.id = remote.id
      · rw [findById, if_pos hid] at h
        cases h
        have hcr : node_view.can_replace remote n = false :=
          (can_replace_eq_false_iff remote n).mpr hp
        simp [update_node, hid, hcr]
      · rw [findById, if_neg hid] at h
        have ih := @update_node_stable ev remote seen rest v h hp
        simp [update_node, hid, ih]

theorem update_node_insert {ev : Bool} {remote : node_view} {seen : time_point} :
    ∀ {nodes : List node_view}, findById nodes remote.id = none →
    update_node ev remote seen nodes =
      (nodes ++ [coerce_status { remote with seen_time := seen }],
       notifyEv ev (coerce_status { remote with seen_time := seen }) node_status.unknown)
  | [], _ => by simp [update_node]
  | n :: rest, h => by
      by_cases hid : n.id = remote.id
      · rw [findById, if_pos hid] at h
        cases h
      · rw [findById, if_neg hid] at h
        simp [update_node, hid, update_node_insert h]

theorem update_node_dom (ev : Bool) (remote : node_view) (seen : time_point) :
    ∀ (nodes : List node_view),
    ∃ v, findById (update_node ev remote seen nodes).1 remote.id = some v ∧
      pLe remote v ∧ (v.seen_time = seen ∨ findById nodes remote.id = some v)
  | [] => by
      refine ⟨coerce_status { remote with seen_time := seen }, ?_, ?_, Or.inl ?_⟩
      · simp [update_node, findById, findById_coerce_id]
      · rcases coerce_status_epoch_heartbeat { remote with seen_time := seen } with ⟨he, hh, _⟩
        exact Or.inr ⟨he.symm, le_of_eq hh.symm⟩
      · exact (coerce_status_epoch_heartbeat _).2.2
  | n :: rest => by
      by_cases hid : n.id = remote.id
      · by_cases hcr : node_view.can_replace remote n = true
        · refine ⟨coerce_status { remote with seen_time := seen }, ?_, ?_, Or.inl ?_⟩
          · simp [update_node, hid, hcr, findById, findById_coerce_id]
          · rcases coerce_status_epoch_heartbeat { remote with seen_time := seen } with ⟨he, hh, _⟩
            exact Or.inr ⟨he.symm, le_of_eq hh.symm⟩
          · exact (coerce_status_epoch_heartbeat _).2.2
        · rw [Bool.not_eq_true] at hcr
          refine ⟨n, ?_, (can_replace_eq_false_iff remote n).mp hcr, Or.inr ?_⟩
          · simp [update_node, hid, hcr, findById]
          · rw [findById, if_pos hid]
      · rcases update_node_dom ev remote seen rest with ⟨v, hv, hple, hseen⟩
        refine ⟨v, ?_, hple, ?_⟩
        · simp only [update_node, if_neg hid]
          rw [findById, if_neg hid]
          exact hv
        · rcases hseen with hseen | hseen
          · exact Or.inl hseen
          · refine Or.inr ?_
            rw [findById, if_neg hid]
            exact hseen

theorem update_node_findById_other {ev : Bool} {remote : node_view} {seen : time_point}
    {x : node_id_t} (hx : x ≠ remote.id) :
    ∀ (nodes : List node_view),
    findById (update_node ev remote seen nodes).1 x = findById nodes x
  | [] => by
      have hrx : ¬ (coerce_status { remote with seen_time := seen }).id = x := by
        rw [findById_coerce_id]; exact fun h => hx h.symm
      show findById [coerce_status { remote with seen_time := seen }] x = findById [] x
      simp only [findById]
      rw [if_neg hrx]
  | n :: rest => by
      by_cases hid : n.id = remote.id
      · have hnx : ¬ n.id = x := by rw [hid]; exact fun h => hx h.symm
        by_cases hcr : node_view.can_replace remote n = true
        · simp only [update_node, if_pos hid, hcr, if_true]
          have h1 : ¬ (coerce_status { remote with seen_time := seen }).id = x := by
            rw [findById_coerce_id]; exact fun h => hx h.symm
          rw [findById, if_neg h1, findById, if_neg hnx]
        · rw [Bool.not_eq_true] at hcr
          simp only [update_node, if_pos hid, hcr, Bool.false_eq_true, if_false]
      · simp only [update_node, if_neg hid]
        rw [findById, findById]
        by_cases hnx : n.id = x
        · rw [if_pos hnx, if_pos hnx]
        · rw [if_neg hnx, if_neg hnx]
          exact update_node_findById_other hx rest

theorem update_node_persist {ev : Bool} {remote : node_view} {seen : time_point}
    {x : node_id_t} : ∀ {nodes : List node_view} {v : node_view},
    findById nodes x = some v →
    ∃ v', findById (update_node ev remote seen nodes).1 x = some v' ∧ pLe v v' ∧
      (v'.seen_time = v.seen_time ∨ v'.seen_time = seen)
  | [], v, h => by simp [findById] at h
  | n :: rest, v, h => by
      by_cases hid : n.id = remote.id
      · by_cases hcr : node_view.can_replace remote n = true
        · by_cases hnx : n.id = x
          · rw [findById, if_pos hnx] at h
            cases h
            refine ⟨coerce_status { remote with seen_time := seen }, ?_, ?_, Or.inr ?_⟩
            · simp only [update_node, if_pos hid, hcr, if_true]
              rw [findById, if_pos (by rw [findById_coerce_id]; exact hid.symm ▸ hnx)]
            · have h1 := can_replace_true_pLe hcr
              rcases coerce_status_epoch_heartbeat { remote with seen_time := seen } with ⟨he, hh, _⟩
              refine pLe_trans h1 ?_
              exact Or.inr ⟨he.symm, le_of_eq hh.symm⟩
            · exact (coerce_status_epoch_heartbeat _).2.2
          · rw [findById, if_neg hnx] at h
            refine ⟨v, ?_, pLe_refl v, Or.inl rfl⟩
            simp only [update_node, if_pos hid, hcr, if_true]
            rw [findById, if_neg (by rw [findById_coerce_id]; exact hid ▸ hnx)]
            exact h
        · rw [Bool.not_eq_true] at hcr
          refine ⟨v, ?_, pLe_refl v, Or.inl rfl⟩
          simp only [update_node, if_pos hid, hcr, Bool.false_eq_true, if_false]
          exact h
      · by_cases hnx : n.id = x
        · rw [findById, if_pos hnx] at h
          cases h
          refine ⟨n, ?_, pLe_refl n, Or.inl rfl⟩
          simp only [update_node, if_neg hid]
          rw [findById, if_pos hnx]
        · rw [findById, if_neg hnx] at h
          rcases @update_node_persist ev remote seen x rest v h
            with ⟨v', hv', hple, hseen⟩
          refine ⟨v', ?_, hple, hseen⟩
          simp only [update_node, if_neg hid]
          rw [findById, if_neg hnx]
          exact hv'

theorem update_node_get? {ev : Bool} {remote : node_view} {seen : time_point} :
    ∀ {nodes : List node_view} {i : Nat} {a : node_view},
    nodes.get? i = some a →
    ∃ b, (update_node ev remote seen nodes).1.get? i = some b ∧
      b.id = a.id ∧ pLe a b
  | [], i, a, h => by simp at h
  | n :: rest, 0, a, h => by
      simp only [List.get?] at h
      cases h
      by_cases hid : n.id = remote.id
      · by_cases hcr : node_view.can_replace remote n = true
        · refine ⟨coerce_status { remote with seen_time := seen }, ?_, ?_, ?_⟩
          · simp only [update_node, if_pos hid, hcr, if_true]
            rfl
          · rw [findById_coerce_id]
            exact hid.symm
          · have h1 := can_replace_true_pLe hcr
            rcases coerce_status_epoch_heartbeat { remote with seen_time := seen } with ⟨he, hh, _⟩
            exact pLe_trans h1 (Or.inr ⟨he.symm, le_of_eq hh.symm⟩)
        · rw [Bool.not_eq_true] at hcr
          refine ⟨n, ?_, rfl, pLe_refl n⟩
          simp only [update_node, if_pos hid, hcr, Bool.false_eq_true, if_false]
          rfl
      · refine ⟨n, ?_, rfl, pLe_refl n⟩
        simp only [update_node, if_neg hid]
        rfl
  | n :: rest, i + 1, a, h => by
      simp only [List.get?] at h
      by_cases hid : n.id = remote.id
      · refine ⟨a, ?_, rfl, pLe_refl a⟩
        by_cases hcr : node_view.can_replace remote n = true
        · simp only [update_node, if_pos hid, hcr, if_true]
          simpa using h
        · rw [Bool.not_eq_true] at hcr
          simp only [update_node, if_pos hid, hcr, Bool.false_eq_true, if_false]
          simpa using h
      · rcases @update_node_get? ev remote seen rest i a h with ⟨b, hb, hbid, hple⟩
        refine ⟨b, ?_, hbid, hple⟩
        simp only [update_node, if_neg hid]
        simpa using hb

theorem notifyEv_mem {ev : Bool} {n : node_view} {old : node_status}
    {p : node_view × node_status} (h : p ∈ notifyEv ev n old) :
    ev = true ∧ p.1.status ≠ p.2 ∧ p = (n, old) := by
  unfold notifyEv at h
  split at h
  · rename_i hc
    simp only [List.mem_singleton] at h
    subst h
    exact ⟨by simpa using hc.1, hc.2, rfl⟩
  · simp at h

theorem update_node_evs {ev : Bool} {remote : node_view} {seen : time_point} :
    ∀ {nodes : List node_view} {p : node_view × node_status},
    p ∈ (update_node ev remote seen nodes).2 → ev = true ∧ p.1.status ≠ p.2
  | [], p, h => by
      simp only [update_node] at h
      have h2 := notifyEv_mem h
      exact ⟨h2.1, h2.2.1⟩
  | n :: rest, p, h => by
      by_cases hid : n.id = remote.id
      · by_cases hcr : node_view.can_replace remote n = true
        · simp only [update_node, if_pos hid, hcr, if_true] at h
          split at h
          · exact ⟨(notifyEv_mem h).1, (notifyEv_mem h).2.1⟩
          · simp at h
        · rw [Bool.not_eq_true] at hcr
          simp only [update_node, if_pos hid, hcr, Bool.false_eq_true, if_false] at h
          split at h
          · exact ⟨(notifyEv_mem h).1, (notifyEv_mem h).2.1⟩
          · simp at h
      · simp only [update_node, if_neg hid] at h
        exact update_node_evs h

theorem merge_entries_findById_other {ev : Bool} {seen : time_point} {x : node_id_t} :
    ∀ {entries : List node_view} {nodes : List node_view},
    (∀ e ∈ entries, e.id ≠ x) →
    findById (merge_entries ev seen nodes entries).1 x = findById nodes x
  | [], nodes, _ => rfl
  | e :: rest, nodes, h => by
      have hx : x ≠ e.id := fun hh => (h e (by simp)) hh.symm
      have ih := @merge_entries_findById_other ev seen x rest
        ((update_node ev e seen nodes).1)
        (fun e' he' => h e' (List.mem_cons_of_mem e he'))
      simp only [merge_entries]
      rw [ih, update_node_findById_other hx]

theorem merge_entries_persist {ev : Bool} {seen : time_point} {x : node_id_t} :
    ∀ {entries : List node_view} {nodes : List node_view} {v : node_view},
    findById nodes x = some v →
    ∃ v', findById (merge_entries ev seen nodes entries).1 x = some v' ∧ pLe v v' ∧
      (v'.seen_time = v.seen_time ∨ v'.seen_time = seen)
  | [], nodes, v, h => ⟨v, h, pLe_refl v, Or.inl rfl⟩
  | e :: rest, nodes, v, h => by
      rcases @update_node_persist ev e seen x nodes v h
        with ⟨v1, h1, hp1, hs1⟩
      rcases @merge_entries_persist ev seen x rest ((update_node ev e seen nodes).1) v1 h1
        with ⟨v2, h2, hp2, hs2⟩
      refine ⟨v2, ?_, pLe_trans hp1 hp2, ?_⟩
      · simp only [merge_entries]
        exact h2
      · rcases hs2 with hs2 | hs2
        · rcases hs1 with hs1 | hs1
          · exact Or.inl (hs2.trans hs1)
          · exact Or.inr (hs2.trans hs1)
        · exact Or.inr hs2

theorem merge_entries_dom {ev : Bool} {seen : time_point} :
    ∀ {entries : List node_view} {nodes : List node_view} {e : node_view}, e ∈ entries →
    ∃ v, findById (merge_entries ev seen nodes entries).1 e.id = some v ∧ pLe e v
  | [], _, _, h => by simp at h
  | f :: rest, nodes, e, h => by
      rw [List.mem_cons] at h
      rcases h with rfl | h
      · rcases update_node_dom ev e seen nodes with ⟨v0, h0, hp0, _⟩
        rcases @merge_entries_persist ev seen e.id rest
          ((update_node ev e seen nodes).1) v0 h0 with ⟨v', h', hp', _⟩
        refine ⟨v', ?_, pLe_trans hp0 hp'⟩
        simp only [merge_entries]
        exact h'
      · rcases @merge_entries_dom ev seen rest ((update_node ev f seen nodes).1) e h
          with ⟨v, hv, hp⟩
        refine ⟨v, ?_, hp⟩
        simp only [merge_entries]
        exact hv

theorem merge_entries_stable {ev : Bool} {seen : time_point} :
    ∀ {entries : List node_view} {nodes : List node_view},
    (∀ e ∈ entries, ∃ v, findById nodes e.id = some v ∧ pLe e v) →
    merge_entries ev seen nodes entries = (nodes, [])
  | [], nodes, _ => rfl
  | e :: rest, nodes, h => by
      rcases h e (by simp) with ⟨v, hv, hp⟩
      have h1 : update_node ev e seen nodes = (nodes, []) := update_node_stable hv hp
      have ih := @merge_entries_stable ev seen rest nodes
        (fun e' he' => h e' (List.mem_cons_of_mem e he'))
      simp [merge_entries, h1, ih]

theorem merge_entries_get? {ev : Bool} {seen : time_point} :
    ∀ {entries : List node_view} {nodes : List node_view} {i : Nat} {a : node_view},
    nodes.get? i = some a →
    ∃ b, (merge_entries ev seen nodes entries).1.get? i = some b ∧
      b.id = a.id ∧ pLe a b
  | [], nodes, i, a, h => ⟨a, h, rfl, pLe_refl a⟩
  | e :: rest, nodes, i, a, h => by
      rcases @update_node_get? ev e seen nodes i a h
        with ⟨b1, h1, hid1, hp1⟩
      rcases @merge_entries_get? ev seen rest ((update_node ev e seen nodes).1) i b1 h1
        with ⟨b2, h2, hid2, hp2⟩
      refine ⟨b2, ?_, hid2.trans hid1, pLe_trans hp1 hp2⟩
      simp only [merge_entries]
      exact h2

theorem merge_entries_evs {ev : Bool} {seen : time_point} :
    ∀ {entries : List node_view} {nodes : List node_view} {p : node_view × node_status},
    p ∈ (merge_entries ev seen nodes entries).2 → ev = true ∧ p.1.status ≠ p.2
  | [], nodes, p, h => by simp [merge_entries] at h
  | e :: rest, nodes, p, h => by
      simp only [merge_entries] at h
      rw [List.mem_append] at h
      rcases h with h | h
      · exact update_node_evs h
      · exact merge_entries_evs h

theorem sender_update_view_fields (ev : Bool) (msg : gossip_message)
    (recv : time_point) (s : node_view) :
    (sender_update_view ev msg recv s).1.id = s.id ∧
    (sender_update_view ev msg recv s).1.ip = s.ip ∧
    (sender_update_view ev msg recv s).1.port = s.port ∧
    (sender_update_view ev msg recv s).1.config_epoch = s.config_epoch ∧
    (sender_update_view ev msg recv s).1.role = s.role ∧
    (sender_update_view ev msg recv s).1.region = s.region ∧
    (sender_update_view ev msg recv s).1.metadata = s.metadata ∧
    (sender_update_view ev msg recv s).1.last_suspected = s.last_suspected ∧
    (sender_update_view ev msg recv s).1.seen_time = recv ∧
    s.heartbeat ≤ (sender_update_view ev msg recv s).1.heartbeat := by
  simp only [sender_update_view]
  split_ifs <;> simp <;> omega

theorem sender_update_view_pLe (ev : Bool) (msg : gossip_message)
    (recv : time_point) (s : node_view) :
    pLe s (sender_update_view ev msg recv s).1 := by
  rcases sender_update_view_fields ev msg recv s with ⟨_, _, _, he, _, _, _, _, _, hh⟩
  exact Or.inr ⟨he.symm, hh⟩

theorem sender_update_view_status (ev : Bool) (msg : gossip_message)
    (recv : time_point) (s : node_view) (hl : msg.type ≠ message_type.leave) :
    (sender_update_view ev msg recv s).1.status
        = (if s.status = node_status.joining then node_status.online else s.status) ∧
    (sender_update_view ev msg recv s).1.suspicion_count
        = (if s.status = node_status.suspect then 0 else s.suspicion_count) := by
  simp only [sender_update_view]
  split_ifs <;> simp_all

theorem sender_update_view_evs {ev : Bool} {msg : gossip_message} {recv : time_point}
    {s : node_view} {p : node_view × node_status}
    (h : p ∈ (sender_update_view ev msg recv s).2) : ev = true ∧ p.1.status ≠ p.2 := by
  simp only [sender_update_view] at h
  split_ifs at h <;>
    simp only [List.append_nil, List.nil_append, List.mem_append] at h <;>
    first
      | exact ⟨(notifyEv_mem h).1, (notifyEv_mem h).2.1⟩
      | (rcases h with h | h <;> exact ⟨(notifyEv_mem h).1, (notifyEv_mem h).2.1⟩)
      | simp at h

theorem sender_update_eq_of_found {ev : Bool} {msg : gossip_message} {recv : time_point}
    {nodes : List node_view} {s : node_view} (h : findById nodes msg.sender = some s) :
    sender_update ev msg recv nodes =
      (modifyById nodes msg.sender (fun _ => (sender_update_view ev msg recv s).1),
       (sender_update_view ev msg recv s).2) := by
  unfold sender_update
  rw [h]

theorem sender_update_findById_self {ev : Bool} {msg : gossip_message}
    {recv : time_point} {nodes : List node_view} {s : node_view}
    (h : findById nodes msg.sender = some s) :
    findById (sender_update ev msg recv nodes).1 msg.sender
      = some (sender_update_view ev msg recv s).1 := by
  have hsid : s.id = msg.sender := findById_some_id h
  rw [sender_update_eq_of_found h]
  exact modifyById_findById_self
    (fun _ => by rw [(sender_update_view_fields ev msg recv s).1, hsid]) h

theorem sender_update_findById_other {ev : Bool} {msg : gossip_message}
    {recv : time_point} {x : node_id_t} (hx : x ≠ msg.sender)
    (nodes : List node_view) :
    findById (sender_update ev msg recv nodes).1 x = findById nodes x := by
  cases hfind : findById nodes msg.sender with
  | none => unfold sender_update; rw [hfind]
  | some s =>
      rw [sender_update_eq_of_found hfind]
      have hsid : s.id = msg.sender := findById_some_id hfind
      exact modifyById_findById_other hx
        (fun _ => by rw [(sender_update_view_fields ev msg recv s).1, hsid]) nodes

theorem sender_update_get? {ev : Bool} {msg : gossip_message} {recv : time_point}
    {nodes : List node_view} {i : Nat} {a : node_view}
    (h : nodes.get? i = some a) :
    (sender_update ev msg recv nodes).1.get? i = some a ∨
      (a.id = msg.sender ∧ findById nodes msg.sender = some a ∧
        (sender_update ev msg recv nodes).1.get? i
          = some (sender_update_view ev msg recv a).1) := by
  cases hfind : findById nodes msg.sender with
  | none =>
      left
      unfold sender_update
      rw [hfind]
      exact h
  | some s =>
      rw [sender_update_eq_of_found hfind]
      rcases modifyById_get? (x := msg.sender)
        (f := fun _ => (sender_update_view ev msg recv s).1) h with h' | ⟨ha, hfa, h'⟩
      · exact Or.inl h'
      · right
        have has : s = a := by
          rw [hfind] at hfa
          exact Option.some.inj hfa
        subst has
        exact ⟨ha, rfl, h'⟩

theorem sender_update_get?_mono {ev : Bool} {msg : gossip_message} {recv : time_point}
    {nodes : List node_view} {i : Nat} {a : node_view}
    (h : nodes.get? i = some a) :
    ∃ b, (sender_update ev msg recv nodes).1.get? i = some b ∧ b.id = a.id ∧ pLe a b := by
  rcases @sender_update_get? ev msg recv nodes i a h with h' | ⟨_, _, h'⟩
  · exact ⟨a, h', rfl, pLe_refl a⟩
  · exact ⟨(sender_update_view ev msg recv a).1, h',
      (sender_update_view_fields ev msg recv a).1, sender_update_view_pLe ev msg recv a⟩

theorem sender_update_evs {ev : Bool} {msg : gossip_message} {recv : time_point}
    {nodes : List node_view} {p : node_view × node_status}
    (h : p ∈ (sender_update ev msg recv nodes).2) : ev = true ∧ p.1.status ≠ p.2 := by
  cases hfind : findById nodes msg.sender with
  | none =>
      unfold sender_update at h
      rw [hfind] at h
      simp at h
  | some s =>
      rw [sender_update_eq_of_found hfind] at h
      exact sender_update_view_evs h

theorem locate_sender_found {ev : Bool} {nodes : List node_view} {msg : gossip_message}
    {recv : time_point} {s : node_view} (h : findById nodes msg.sender = some s) :
    locate_sender ev nodes msg recv = ⟨true, nodes, []⟩ := by
  unfold locate_sender
  rw [h]

theorem locate_sender_not_admission {ev : Bool} {nodes : List node_view}
    {msg : gossip_message} {recv : time_point}
    (h : findById nodes msg.sender = none)
    (hm : ¬ (msg.type = message_type.meet ∨ msg.type = message_type.join)) :
    locate_sender ev nodes msg recv = ⟨false, nodes, []⟩ := by
  unfold locate_sender
  rw [h]
  rw [if_neg (fun hc => hm hc.1)]

theorem locate_sender_no_entry {ev : Bool} {nodes : List node_view}
    {msg : gossip_message} {recv : time_point}
    (h : findById nodes msg.sender = none)
    (he : findById msg.entries msg.sender = none) :
    locate_sender ev nodes msg recv = ⟨false, nodes, []⟩ := by
  unfold locate_sender
  rw [h]
  by_cases hif : (msg.type = message_type.meet ∨ msg.type = message_type.join) ∧
      msg.entries ≠ []
  · rw [if_pos hif, he]
  · rw [if_neg hif]

theorem locate_sender_via_entries {ev : Bool} {nodes : List node_view}
    {msg : gossip_message} {recv : time_point} {e : node_view}
    (h : findById nodes msg.sender = none)
    (hm : msg.type = message_type.meet ∨ msg.type = message_type.join)
    (he : findById msg.entries msg.sender = some e) :
    locate_sender ev nodes msg recv =
      ⟨true, (update_node ev e recv nodes).1, (update_node ev e recv nodes).2⟩ := by
  have hne : msg.entries ≠ [] := by
    intro hnil
    rw [hnil] at he
    simp [findById] at he
  unfold locate_sender
  rw [h, if_pos ⟨hm, hne⟩, he]

theorem locate_sender_evs {ev : Bool} {nodes : List node_view} {msg : gossip_message}
    {recv : time_point} {p : node_view × node_status}
    (h : p ∈ (locate_sender ev nodes msg recv).evs) : ev = true ∧ p.1.status ≠ p.2 := by
  unfold locate_sender at h
  split at h
  · simp at h
  · split at h
    · split at h
      · exact update_node_evs h
      · simp at h
    · simp at h

theorem handle_message_unknown_nonadmission (perm : List node_view → List node_view)
    (c : gossip_core) (msg : gossip_message) (t : time_point)
    (h : findById c.nodes_ msg.sender = none)
    (hm : msg.type ≠ message_type.meet) (hj : msg.type ≠ message_type.join) :
    gossip_core.handle_message perm c msg t =
      ({ c with received_messages_ := c.received_messages_ + 1 }, [], []) := by
  have hloc := @locate_sender_not_admission c.has_event_fn_ c.nodes_ msg t h
    (fun hc => by rcases hc with hc | hc; exact hm hc; exact hj hc)
  simp [gossip_core.handle_message, hloc, hm, hj]

theorem handle_message_admission_no_sender (perm : List node_view → List node_view)
    (c : gossip_core) (msg : gossip_message) (t : time_point)
    (h : findById c.nodes_ msg.sender = none)
    (hm : msg.type = message_type.meet ∨ msg.type = message_type.join)
    (he : findById msg.entries msg.sender = none) :
    gossip_core.handle_message perm c msg t =
      ({ c with
          nodes_ := (merge_entries c.has_event_fn_ t c.nodes_ msg.entries).1,
          received_messages_ := c.received_messages_ + 1 }, [],
       (merge_entries c.has_event_fn_ t c.nodes_ msg.entries).2) := by
  have hloc := @locate_sender_no_entry c.has_event_fn_ c.nodes_ msg t h he
  rcases hm with hm | hm <;> simp [gossip_core.handle_message, hloc, hm]

theorem handle_message_located_nodes (perm : List node_view → List node_view)
    (c : gossip_core) (msg : gossip_message) (t : time_point) (s : node_view)
    (h : findById c.nodes_ msg.sender = some s) :
    (gossip_core.handle_message perm c msg t).1.nodes_ =
      (merge_entries c.has_event_fn_ t
        (sender_update c.has_event_fn_ msg t c.nodes_).1 msg.entries).1 := by
  have hloc := @locate_sender_found c.has_event_fn_ c.nodes_ msg t s h
  by_cases hp : (msg.type = message_type.ping ∨ msg.type = message_type.meet ∨
      msg.type = message_type.join)
  · simp [gossip_core.handle_message, hloc, hp]
  · simp [gossip_core.handle_message, hloc, hp]

theorem handle_message_located_via_entries_nodes (perm : List node_view → List node_view)
    (c : gossip_core) (msg : gossip_message) (t : time_point) (e : node_view)
    (h : findById c.nodes_ msg.sender = none)
    (hm : msg.type = message_type.meet ∨ msg.type = message_type.join)
    (he : findById msg.entries msg.sender = some e) :
    (gossip_core.handle_message perm c msg t).1.nodes_ =
      (merge_entries c.has_event_fn_ t
        (sender_update c.has_event_fn_ msg t
          (update_node c.has_event_fn_ e t c.nodes_).1).1 msg.entries).1 := by
  have hloc := @locate_sender_via_entries c.has_event_fn_ c.nodes_ msg t e h hm he
  by_cases hp : (msg.type = message_type.ping ∨ msg.type = message_type.meet ∨
      msg.type = message_type.join)
  · simp [gossip_core.handle_message, hloc, hp]
  · simp [gossip_core.handle_message, hloc, hp]

theorem handle_message_evs {perm : List node_view → List node_view}
    {c : gossip_core} {msg : gossip_message} {t : time_point}
    {p : node_view × node_status}
    (h : p ∈ (gossip_core.handle_message perm c msg t).2.2) :
    c.has_event_fn_ = true ∧ p.1.status ≠ p.2 := by
  simp only [gossip_core.handle_message] at h
  split at h
  · simp at h
  · split at h <;>
      (simp only [List.mem_append] at h
       rcases h with (h | h) | h
       · exact locate_sender_evs h
       · revert h
         split
         · exact fun h => sender_update_evs h
         · intro h; simp at h
       · exact merge_entries_evs h)

theorem handle_message_get? {perm : List node_view → List node_view}
    {c : gossip_core} {msg : gossip_message} {t : time_point} {i : Nat} {a : node_view}
    (h : c.nodes_.get? i = some a) :
    ∃ b, (gossip_core.handle_message perm c msg t).1.nodes_.get? i = some b ∧
      b.id = a.id ∧ pLe a b := by
  cases hfind : findById c.nodes_ msg.sender with
  | some s =>
      rw [handle_message_located_nodes perm c msg t s hfind]
      rcases @sender_update_get?_mono c.has_event_fn_ msg t c.nodes_ i a h
        with ⟨b1, h1, hid1, hp1⟩
      rcases @merge_entries_get? c.has_event_fn_ t msg.entries
        ((sender_update c.has_event_fn_ msg t c.nodes_).1) i b1 h1
        with ⟨b2, h2, hid2, hp2⟩
      exact ⟨b2, h2, hid2.trans hid1, pLe_trans hp1 hp2⟩
  | none =>
      by_cases hm : msg.type = message_type.meet ∨ msg.type = message_type.join
      · cases hfe : findById msg.entries msg.sender with
        | some e =>
            rw [handle_message_located_via_entries_nodes perm c msg t e hfind hm hfe]
            rcases @update_node_get? c.has_event_fn_ e t c.nodes_ i a h
              with ⟨b0, h0, hid0, hp0⟩
            rcases @sender_update_get?_mono c.has_event_fn_ msg t
              ((update_node c.has_event_fn_ e t c.nodes_).1) i b0 h0
              with ⟨b1, h1, hid1, hp1⟩
            rcases @merge_entries_get? c.has_event_fn_ t msg.entries
              ((sender_update c.has_event_fn_ msg t
                (update_node c.has_event_fn_ e t c.nodes_).1).1) i b1 h1
              with ⟨b2, h2, hid2, hp2⟩
            exact ⟨b2, h2, (hid2.trans hid1).trans hid0,
              pLe_trans hp0 (pLe_trans hp1 hp2)⟩
        | none =>
            rw [handle_message_admission_no_sender perm c msg t hfind hm hfe]
            rcases @merge_entries_get? c.has_event_fn_ t msg.entries c.nodes_ i a h
              with ⟨b, hb, hbid, hp⟩
            exact ⟨b, hb, hbid, hp⟩
      · rw [handle_message_unknown_nonadmission perm c msg t hfind
          (fun hc => hm (Or.inl hc)) (fun hc => hm (Or.inr hc))]
        exact ⟨a, h, rfl, pLe_refl a⟩

theorem fd_step_fields (ev : Bool) (timeout : Nat) (now : time_point) (n : node_view) :
    (fd_step ev timeout now n).1.id = n.id ∧
    (fd_step ev timeout now n).1.config_epoch = n.config_epoch ∧
    (fd_step ev timeout now n).1.heartbeat = n.heartbeat := by
  simp only [fd_step]
  split_ifs <;> simp

theorem fd_step_evs {ev : Bool} {timeout : Nat} {now : time_point} {n : node_view}
    {p : node_view × node_status} (h : p ∈ (fd_step ev timeout now n).2) :
    ev = true ∧ p.1.status ≠ p.2 := by
  simp only [fd_step] at h
  split_ifs at h <;>
    first
      | exact ⟨(notifyEv_mem h).1, (notifyEv_mem h).2.1⟩
      | simp at h

theorem fd_pass_get? (ev : Bool) (timeout : Nat) (now : time_point) :
    ∀ (nodes : List node_view) (i : Nat),
    (fd_pass ev timeout now nodes).1.get? i =
      (nodes.get? i).map (fun n => (fd_step ev timeout now n).1)
  | [], i => by simp [fd_pass]
  | n :: rest, 0 => by simp [fd_pass]
  | n :: rest, i + 1 => by
      simp only [fd_pass, List.get?]
      exact fd_pass_get? ev timeout now rest i

theorem fd_pass_evs_mem {ev : Bool} {timeout : Nat} {now : time_point} :
    ∀ {nodes : List node_view} {i : Nat} {n : node_view},
    nodes.get? i = some n →
    ∀ p ∈ (fd_step ev timeout now n).2, p ∈ (fd_pass ev timeout now nodes).2
  | [], i, n, h => by simp at h
  | m :: rest, 0, n, h => by
      simp only [List.get?] at h
      cases h
      intro p hp
      simp only [fd_pass, List.mem_append]
      exact Or.inl hp
  | m :: rest, i + 1, n, h => by
      intro p hp
      simp only [fd_pass, List.mem_append]
      exact Or.inr (fd_pass_evs_mem (by simpa using h) p hp)

theorem fd_pass_evs {ev : Bool} {timeout : Nat} {now : time_point} :
    ∀ {nodes : List node_view} {p : node_view × node_status},
    p ∈ (fd_pass ev timeout now nodes).2 → ev = true ∧ p.1.status ≠ p.2
  | [], p, h => by simp [fd_pass] at h
  | n :: rest, p, h => by
      simp only [fd_pass, List.mem_append] at h
      rcases h with h | h
      · exact fd_step_evs h
      · exact fd_pass_evs h

theorem tick_nodes (perm : List node_view → List node_view) (c : gossip_core)
    (now : time_point) : (gossip_core.tick perm c now).1.nodes_ =
      (fd_pass c.has_event_fn_ c.failure_timeout_ now c.nodes_).1 := rfl

theorem tick_evs (perm : List node_view → List node_view) (c : gossip_core)
    (now : time_point) : (gossip_core.tick perm c now).2.2 =
      (fd_pass c.has_event_fn_ c.failure_timeout_ now c.nodes_).2 := rfl

theorem meet_nodes_cases (c : gossip_core) (node : node_view) (now : time_point) :
    (gossip_core.meet c node now).1.nodes_ = c.nodes_ ∨
    (gossip_core.meet c node now).1.nodes_ =
      c.nodes_ ++ [{ node with status := node_status.joining, seen_time := now }] := by
  unfold gossip_core.meet
  split
  · exact Or.inl rfl
  · cases hfind : findById c.nodes_ node.id with
    | some s => exact Or.inl rfl
    | none => exact Or.inr rfl

theorem meet_evs {c : gossip_core} {node : node_view} {now : time_point}
    {p : node_view × node_status}
    (h : p ∈ (gossip_core.meet c node now).2.2) :
    c.has_event_fn_ = true ∧ p.1.status ≠ p.2 := by
  unfold gossip_core.meet at h
  split at h
  · simp at h
  · revert h
    cases hfind : findById c.nodes_ node.id with
    | some s =>
        intro h
        simp at h
    | none =>
        intro h
        exact ⟨(notifyEv_mem h).1, (notifyEv_mem h).2.1⟩

theorem findById_eq_none_of_forall : ∀ {nodes : List node_view} {x : node_id_t},
    (∀ v ∈ nodes, v.id ≠ x) → findById nodes x = none
  | [], _, _ => rfl
  | n :: rest, x, h => by
      rw [findById, if_neg (h n (by simp))]
      exact findById_eq_none_of_forall (fun v hv => h v (List.mem_cons_of_mem n hv))

/-- The second application of a message with a located sender only rewrites
the sender's entry through sender_update_view: the entries merge is the
identity because every carried entry is already dominated in the table. -/
theorem hm_second_nodes {perm₂ : List node_view → List node_view}
    {c2 : gossip_core} {msg : gossip_message} {t : time_point} {w1 : node_view}
    (hw : findById c2.nodes_ msg.sender = some w1)
    (hdom : ∀ e ∈ msg.entries, ∃ v, findById c2.nodes_ e.id = some v ∧ pLe e v) :
    (gossip_core.handle_message perm₂ c2 msg t).1.nodes_ =
      modifyById c2.nodes_ msg.sender
        (fun _ => (sender_update_view c2.has_event_fn_ msg t w1).1) := by
  rw [handle_message_located_nodes perm₂ c2 msg t w1 hw]
  have hSU := @sender_update_eq_of_found c2.has_event_fn_ msg t c2.nodes_ w1 hw
  have hself := @sender_update_findById_self c2.has_event_fn_ msg t c2.nodes_ w1 hw
  have hdom2 : ∀ e ∈ msg.entries, ∃ v,
      findById (sender_update c2.has_event_fn_ msg t c2.nodes_).1 e.id = some v ∧
        pLe e v := by
    intro e hein
    by_cases hes : e.id = msg.sender
    · rcases hdom e hein with ⟨v, hv, hple⟩
      have hv' : v = w1 := by
        rw [hes, hw] at hv
        exact (Option.some.inj hv).symm
      subst hv'
      refine ⟨(sender_update_view c2.has_event_fn_ msg t v).1, ?_, ?_⟩
      · rw [hes]
        exact hself
      · exact pLe_trans hple (sender_update_view_pLe _ _ _ _)
    · rcases hdom e hein with ⟨v, hv, hple⟩
      refine ⟨v, ?_, hple⟩
      rw [sender_update_findById_other hes _]
      exact hv
  rw [merge_entries_stable hdom2, hSU]

theorem table_agrees_refl (sender : node_id_t) (l : List node_view) :
    table_agrees_except_sender sender l l := by
  refine ⟨rfl, ?_⟩
  intro i a b ha hb
  rw [ha] at hb
  injection hb with hb
  subst hb
  exact ⟨rfl, rfl, rfl, rfl, rfl, rfl, rfl, rfl, rfl, fun _ => rfl⟩

theorem table_agrees_sender_update {ev : Bool} {msg : gossip_message} {t : time_point}
    {l1 : List node_view} {w : node_view}
    (hw : findById l1 msg.sender = some w) (hws : w.seen_time = t) :
    table_agrees_except_sender msg.sender l1
      (modifyById l1 msg.sender (fun _ => (sender_update_view ev msg t w).1)) := by
  refine ⟨modifyById_length _ _ _, ?_⟩
  intro i a b ha hb
  rcases modifyById_get? (x := msg.sender)
    (f := fun _ => (sender_update_view ev msg t w).1) ha with h' | ⟨haid, hafind, h'⟩
  · rw [h'] at hb
    injection hb with hb
    subst hb
    exact ⟨rfl, rfl, rfl, rfl, rfl, rfl, rfl, rfl, rfl, fun _ => rfl⟩
  · have haw : a = w := by
      rw [hw] at hafind
      exact (Option.some.inj hafind).symm
    subst haw
    rw [h'] at hb
    injection hb with hb
    subst hb
    rcases sender_update_view_fields ev msg t a with ⟨f1, f2, f3, f4, f5, f6, f7, f8, f9, _⟩
    exact ⟨f1, f2, f3, f4, by rw [f9]; exact hws.symm, f5, f6, f7, f8,
      fun hne => absurd haid hne⟩

/-- Applying the same message a second time, when the first application
located the sender in a base table N, only touches the sender's entry of the
first application's table. -/
theorem hm_twice_located {perm₂ : List node_view → List node_view}
    {r1 : gossip_core} {msg : gossip_message} {t : time_point} {ev0 : Bool}
    {N : List node_view} {s0 : node_view}
    (hN : findById N msg.sender = some s0)
    (hM : r1.nodes_ = (merge_entries ev0 t
        (sender_update ev0 msg t N).1 msg.entries).1) :
    table_agrees_except_sender msg.sender r1.nodes_
      (gossip_core.handle_message perm₂ r1 msg t).1.nodes_ := by
  have hsuself := @sender_update_findById_self ev0 msg t N s0 hN
  have hseen0 : (sender_update_view ev0 msg t s0).1.seen_time = t :=
    (sender_update_view_fields _ _ _ _).2.2.2.2.2.2.2.2.1
  rcases @merge_entries_persist ev0 t msg.sender msg.entries
    ((sender_update ev0 msg t N).1) ((sender_update_view ev0 msg t s0).1) hsuself
    with ⟨w1, hw1, _, hseen1⟩
  have hw1seen : w1.seen_time = t := by
    rcases hseen1 with hs | hs
    · rw [hs, hseen0]
    · exact hs
  have hw1' : findById r1.nodes_ msg.sender = some w1 := by
    rw [hM]
    exact hw1
  have hdom : ∀ e ∈ msg.entries, ∃ v, findById r1.nodes_ e.id = some v ∧ pLe e v := by
    intro e he
    rcases @merge_entries_dom ev0 t msg.entries ((sender_update ev0 msg t N).1) e he
      with ⟨v, hv, hp⟩
    refine ⟨v, ?_, hp⟩
    rw [hM]
    exact hv
  have h2 := @hm_second_nodes perm₂ r1 msg t w1 hw1' hdom
  rw [h2]
  exact table_agrees_sender_update hw1' hw1seen

theorem fd_step_online_timeout {ev : Bool} {timeout : Nat} {now : time_point}
    {n : node_view} (hs : n.status = node_status.online)
    (ht : (now : Int) - (n.seen_time : Int) ≥ (timeout : Int)) :
    fd_step ev timeout now n =
      ({ n with status := node_status.suspect,
                suspicion_count := n.suspicion_count + 1,
                last_suspected := now },
       notifyEv ev { n with status := node_status.suspect,
                            suspicion_count := n.suspicion_count + 1,
                            last_suspected := now } node_status.online) := by
  unfold fd_step
  rw [if_pos hs, if_pos ht]

/-- C9: constructing the core with a null SEND callback fails fast: the
constructor raises (modelled as Except.error) and no core instance is
produced. -/
theorem construct_null_send_fails (self : node_view) (has_event : Bool)
    (now : time_point) :
    gossip_core.construct self true has_event now =
      Except.error "send_callback cannot be null" := rfl

/-- C8: tick on an empty peer table invokes SEND zero times and leaves
sent_messages unchanged, while still increasing self.heartbeat by exactly 1
and self.version by exactly 1. -/
theorem tick_empty_table_no_sends (perm : List node_view → List node_view)
    (c : gossip_core) (now : time_point) (h : c.nodes_ = []) :
    (gossip_core.tick perm c now).2.1 = [] ∧
    (gossip_core.tick perm c now).1.sent_messages_ = c.sent_messages_ ∧
    (gossip_core.tick perm c now).1.self_.heartbeat = c.self_.heartbeat + 1 ∧
    (gossip_core.tick perm c now).1.self_.version = c.self_.version + 1 ∧
    (gossip_core.tick perm c now).1.nodes_ = [] := by
  refine ⟨?_, ?_, ?_, ?_, ?_⟩ <;>
    simp [gossip_core.tick, select_random_peers, fd_pass, h]

/-- C8 witness: the constructed core at a concrete tick instant. -/
theorem tick_empty_table_no_sends_witness :
    baseCore.nodes_ = [] ∧
    ((gossip_core.tick idPerm baseCore 7).2.1 = [] ∧
     (gossip_core.tick idPerm baseCore 7).1.sent_messages_ = baseCore.sent_messages_ ∧
     (gossip_core.tick idPerm baseCore 7).1.self_.heartbeat = baseCore.self_.heartbeat + 1 ∧
     (gossip_core.tick idPerm baseCore 7).1.self_.version = baseCore.self_.version + 1 ∧
     (gossip_core.tick idPerm baseCore 7).1.nodes_ = []) :=
  ⟨rfl, tick_empty_table_no_sends idPerm baseCore 7 rfl⟩

/-- C7: handle_message with an unknown sender and type ping, pong or update
changes no state other than incrementing the received counter: the table,
the self view and the sent counter are unchanged and no SEND or EVENT
callback fires. -/
theorem unknown_sender_nonadmission_is_noop (perm : List node_view → List node_view)
    (c : gossip_core) (msg : gossip_message) (t : time_point)
    (h : findById c.nodes_ msg.sender = none)
    (ht : msg.type = message_type.ping ∨ msg.type = message_type.pong ∨
          msg.type = message_type.update) :
    gossip_core.handle_message perm c msg t =
      ({ c with received_messages_ := c.received_messages_ + 1 }, [], []) := by
  rcases ht with ht | ht | ht <;>
    exact handle_message_unknown_nonadmission perm c msg t h
      (by simp [ht]) (by simp [ht])

/-- C7 witness: a ping from the unknown id 9 delivered to the fresh core. -/
theorem unknown_sender_nonadmission_is_noop_witness :
    findById baseCore.nodes_ 9 = none ∧
    gossip_core.handle_message idPerm baseCore
        { sender := 9, type := message_type.ping, timestamp := 4 } 5 =
      ({ baseCore with received_messages_ := baseCore.received_messages_ + 1 },
       [], []) :=
  ⟨rfl, unknown_sender_nonadmission_is_noop idPerm baseCore
    { sender := 9, type := message_type.ping, timestamp := 4 } 5 rfl (Or.inl rfl)⟩

/-- C10: a meet or join message from an unknown sender whose entries carry no
view of the sender is not discarded: every entry is merged via the upsert
fold, no pong is sent, sent_messages and the self view are unchanged, and no
entry for the sender appears. -/
theorem meet_join_unknown_sender_still_merges (perm : List node_view → List node_view)
    (c : gossip_core) (msg : gossip_message) (t : time_point)
    (h : findById c.nodes_ msg.sender = none)
    (hm : msg.type = message_type.meet ∨ msg.type = message_type.join)
    (he : ∀ e ∈ msg.entries, e.id ≠ msg.sender) :
    gossip_core.handle_message perm c msg t =
      ({ c with
          nodes_ := (merge_entries c.has_event_fn_ t c.nodes_ msg.entries).1,
          received_messages_ := c.received_messages_ + 1 }, [],
       (merge_entries c.has_event_fn_ t c.nodes_ msg.entries).2) ∧
    findById (gossip_core.handle_message perm c msg t).1.nodes_ msg.sender = none := by
  have hfe : findById msg.entries msg.sender = none := findById_eq_none_of_forall he
  have h1 := handle_message_admission_no_sender perm c msg t h hm hfe
  refine ⟨h1, ?_⟩
  rw [h1]
  show findById (merge_entries c.has_event_fn_ t c.nodes_ msg.entries).1 msg.sender = none
  rw [merge_entries_findById_other he]
  exact h

/-- C10 witness: a meet from unknown id 9 carrying only a view of id 3. -/
theorem meet_join_unknown_sender_still_merges_witness :
    findById baseCore.nodes_ 9 = none ∧
    (message_type.meet = message_type.meet ∨ message_type.meet = message_type.join) ∧
    (∀ e ∈ [({ id := 3 } : node_view)], e.id ≠ 9) ∧
    findById (gossip_core.handle_message idPerm baseCore
        { sender := 9, type := message_type.meet, timestamp := 0,
          entries := [{ id := 3 }] } 5).1.nodes_ 9 = none :=
  ⟨rfl, Or.inl rfl, by decide,
    (meet_join_unknown_sender_still_merges idPerm baseCore
      { sender := 9, type := message_type.meet, timestamp := 0,
        entries := [{ id := 3 }] } 5 rfl (Or.inl rfl) (by decide)).2⟩

/-- C2 (code-bug evidence): update_node has no self guard, so handling a
meet message whose entries carry the self id inserts an entry with the self
id into the peer table, violating the self-exclusion invariant; the run
starts from the constructed core. -/
theorem handle_message_inserts_self_id :
    gossip_core.construct selfView false true 0 = Except.ok baseCore ∧
    baseCore.self_.id = 1 ∧
    ((gossip_core.handle_message idPerm baseCore
        { sender := 2, type := message_type.meet, timestamp := 0,
          entries := [{ id := 2 }, { id := 1 }] } 0).1.nodes_.map node_view.id)
      = [2, 1] :=
  ⟨rfl, rfl, by decide⟩

/-- C1 counterexample: handling the same update message twice leaves the
sender's version one higher than handling it once, so the tables differ. -/
theorem handle_message_twice_version_differs :
    (findById (gossip_core.handle_message idPerm onlineCore
        { sender := 2, type := message_type.update, timestamp := 1 } 3).1.nodes_ 2).map
      node_view.version = some 2 ∧
    (findById (gossip_core.handle_message idPerm
        (gossip_core.handle_message idPerm onlineCore
          { sender := 2, type := message_type.update, timestamp := 1 } 3).1
        { sender := 2, type := message_type.update, timestamp := 1 } 3).1.nodes_ 2).map
      node_view.version = some 3 ∧
    (gossip_core.handle_message idPerm onlineCore
        { sender := 2, type := message_type.update, timestamp := 1 } 3).1.nodes_ ≠
      (gossip_core.handle_message idPerm
        (gossip_core.handle_message idPerm onlineCore
          { sender := 2, type := message_type.update, timestamp := 1 } 3).1
        { sender := 2, type := message_type.update, timestamp := 1 } 3).1.nodes_ :=
  ⟨by decide, by decide, by decide⟩

/-- C1 (amended): applying the same message twice produces the same final
table as applying it once, except for the sender's entry, which may differ
only in heartbeat, version, status and suspicion_count (in particular its
version is bumped again); all other entries and fields are identical. -/
theorem handle_message_twice_table_agrees
    (perm₁ perm₂ : List node_view → List node_view) (c : gossip_core)
    (msg : gossip_message) (t : time_point) :
    table_agrees_except_sender msg.sender
      (gossip_core.handle_message perm₁ c msg t).1.nodes_
      (gossip_core.handle_message perm₂
        (gossip_core.handle_message perm₁ c msg t).1 msg t).1.nodes_ := by
  cases hfind : findById c.nodes_ msg.sender with
  | some s =>
      exact hm_twice_located hfind (handle_message_located_nodes perm₁ c msg t s hfind)
  | none =>
      by_cases hmj : msg.type = message_type.meet ∨ msg.type = message_type.join
      · cases hfe : findById msg.entries msg.sender with
        | some e =>
            have hsid : e.id = msg.sender := findById_some_id hfe
            rcases update_node_dom c.has_event_fn_ e t c.nodes_ with ⟨v0, hv0, _, _⟩
            rw [hsid] at hv0
            exact hm_twice_located hv0
              (handle_message_located_via_entries_nodes perm₁ c msg t e hfind hmj hfe)
        | none =>
            have hforall : ∀ e' ∈ msg.entries, e'.id ≠ msg.sender :=
              findById_none_forall hfe
            have h1 := handle_message_admission_no_sender perm₁ c msg t hfind hmj hfe
            have hM1 : (gossip_core.handle_message perm₁ c msg t).1.nodes_ =
                (merge_entries c.has_event_fn_ t c.nodes_ msg.entries).1 := by
              rw [h1]
            have hfind2 : findById
                (gossip_core.handle_message perm₁ c msg t).1.nodes_ msg.sender = none := by
              rw [hM1, merge_entries_findById_other hforall]
              exact hfind
            have hdom : ∀ e' ∈ msg.entries, ∃ v,
                findById (gossip_core.handle_message perm₁ c msg t).1.nodes_ e'.id
                  = some v ∧ pLe e' v := by
              intro e' he'
              rcases @merge_entries_dom c.has_event_fn_ t msg.entries c.nodes_ e' he'
                with ⟨v, hv, hp⟩
              refine ⟨v, ?_, hp⟩
              rw [hM1]
              exact hv
            have h2 := handle_message_admission_no_sender perm₂
              (gossip_core.handle_message perm₁ c msg t).1 msg t hfind2 hmj hfe
            have hM2 : (gossip_core.handle_message perm₂
                (gossip_core.handle_message perm₁ c msg t).1 msg t).1.nodes_ =
                (merge_entries (gossip_core.handle_message perm₁ c msg t).1.has_event_fn_ t
                  (gossip_core.handle_message perm₁ c msg t).1.nodes_ msg.entries).1 := by
              rw [h2]
            rw [hM2, merge_entries_stable hdom]
            exact table_agrees_refl _ _
      · have hne_meet : msg.type ≠ message_type.meet := fun hc => hmj (Or.inl hc)
        have hne_join : msg.type ≠ message_type.join := fun hc => hmj (Or.inr hc)
        have h1 := handle_message_unknown_nonadmission perm₁ c msg t hfind hne_meet hne_join
        have hfind2 : findById
            (gossip_core.handle_message perm₁ c msg t).1.nodes_ msg.sender = none := by
          rw [h1]
          exact hfind
        have h2 := handle_message_unknown_nonadmission perm₂
          (gossip_core.handle_message perm₁ c msg t).1 msg t hfind2 hne_meet hne_join
        rw [h2]
        exact table_agrees_refl _ _

/-- C1 witness: the amended idempotence instantiated on the concrete
double application used in the counterexample. -/
theorem handle_message_twice_table_agrees_witness :
    table_agrees_except_sender 2
      (gossip_core.handle_message idPerm onlineCore
        { sender := 2, type := message_type.update, timestamp := 1 } 3).1.nodes_
      (gossip_core.handle_message idPerm
        (gossip_core.handle_message idPerm onlineCore
          { sender := 2, type := message_type.update, timestamp := 1 } 3).1
        { sender := 2, type := message_type.update, timestamp := 1 } 3).1.nodes_ :=
  handle_message_twice_table_agrees idPerm idPerm onlineCore
    { sender := 2, type := message_type.update, timestamp := 1 } 3

/-- C3 counterexample: a suspect sender does not recover to online on a
subsequent message from it: its suspicion_count resets to 0 but its status
stays suspect. -/
theorem suspect_sender_remains_suspect :
    (findById suspectCore.nodes_ 2).map node_view.status = some node_status.suspect ∧
    (findById (gossip_core.handle_message idPerm suspectCore
        { sender := 2, type := message_type.ping, timestamp := 2 } 2001).1.nodes_ 2).map
      (fun n => (n.status, n.suspicion_count))
      = some (node_status.suspect, 0) ∧
    node_status.suspect ≠ node_status.online :=
  ⟨by decide, by decide, by decide⟩

/-- C3 (amended): for a sender already present, a non-leave message whose
entries carry no view of the sender leaves the sender online iff it was
online or joining: a joining sender becomes online, a suspect sender stays
suspect with suspicion_count reset to 0, and any other status is unchanged. -/
theorem sender_update_status_characterization
    (perm : List node_view → List node_view) (c : gossip_core)
    (msg : gossip_message) (t : time_point) (s : node_view)
    (h : findById c.nodes_ msg.sender = some s)
    (hl : msg.type ≠ message_type.leave)
    (he : ∀ e ∈ msg.entries, e.id ≠ msg.sender) :
    ∃ v, findById (gossip_core.handle_message perm c msg t).1.nodes_ msg.sender
        = some v ∧
      v.status = (if s.status = node_status.joining then node_status.online
                  else s.status) ∧
      v.suspicion_count = (if s.status = node_status.suspect then 0
                           else s.suspicion_count) := by
  rw [handle_message_located_nodes perm c msg t s h]
  have h1 := @sender_update_findById_self c.has_event_fn_ msg t c.nodes_ s h
  refine ⟨(sender_update_view c.has_event_fn_ msg t s).1, ?_, ?_, ?_⟩
  · rw [merge_entries_findById_other he]
    exact h1
  · exact (sender_update_view_status _ _ _ _ hl).1
  · exact (sender_update_view_status _ _ _ _ hl).2

/-- C3 witness: the suspect peer 2 of suspectCore receives a ping. -/
theorem sender_update_status_characterization_witness :
    findById suspectCore.nodes_ 2 =
      some ((findById suspectCore.nodes_ 2).getD default) ∧
    message_type.ping ≠ message_type.leave ∧
    (∃ v, findById (gossip_core.handle_message idPerm suspectCore
        { sender := 2, type := message_type.ping, timestamp := 2 } 2001).1.nodes_ 2
        = some v ∧
      v.status = (if ((findById suspectCore.nodes_ 2).getD default).status
            = node_status.joining then node_status.online
          else ((findById suspectCore.nodes_ 2).getD default).status) ∧
      v.suspicion_count = (if ((findById suspectCore.nodes_ 2).getD default).status
            = node_status.suspect then 0
          else ((findById suspectCore.nodes_ 2).getD default).suspicion_count)) :=
  ⟨by decide, by decide,
    sender_update_status_characterization idPerm suspectCore
      { sender := 2, type := message_type.ping, timestamp := 2 } 2001
      ((findById suspectCore.nodes_ 2).getD default) (by decide) (by decide) (by decide)⟩

/-- C4 counterexample: an incoming entry with a strictly larger config_epoch
but smaller heartbeat wins can_replace and is copied wholesale, so the
stored heartbeat decreases from 5 to 3; the decreasing heartbeat field is
not discarded. -/
theorem heartbeat_can_decrease_under_epoch_bump :
    (findById (gossip_core.handle_message idPerm meetCore
        { sender := 2, type := message_type.ping, timestamp := 5 } 0).1.nodes_ 2).map
      (fun n => (n.config_epoch, n.heartbeat)) = some (0, 5) ∧
    (findById (gossip_core.handle_message idPerm
        (gossip_core.handle_message idPerm meetCore
          { sender := 2, type := message_type.ping, timestamp := 5 } 0).1
        { sender := 2, type := message_type.update, timestamp := 0,
          entries := [{ id := 2, config_epoch := 1, heartbeat := 3,
                        status := node_status.online }] } 1).1.nodes_ 2).map
      (fun n => (n.config_epoch, n.heartbeat)) = some (1, 3) ∧
    (3 : Nat) < 5 :=
  ⟨by decide, by decide, by decide⟩

/-- C4 (amended): across tick, handle_message and meet, each stored entry's
(config_epoch, heartbeat) pair never decreases in the lexicographic
can_replace order, and config_epoch alone never decreases; heartbeat alone
can decrease exactly when a strictly larger config_epoch arrives. -/
theorem run_epoch_pair_monotone (perm : List node_view → List node_view)
    (c : gossip_core) (op : core_op) (i : Nat) (a : node_view)
    (h : c.nodes_.get? i = some a) :
    ∃ b, (gossip_core.run perm c op).1.nodes_.get? i = some b ∧ b.id = a.id ∧
      a.config_epoch ≤ b.config_epoch ∧ pLe a b := by
  cases op with
  | tick_op now =>
      refine ⟨(fd_step c.has_event_fn_ c.failure_timeout_ now a).1, ?_, ?_, ?_, ?_⟩
      · show (gossip_core.tick perm c now).1.nodes_.get? i = _
        rw [tick_nodes, fd_pass_get?, h]
        rfl
      · exact (fd_step_fields _ _ _ a).1
      · exact le_of_eq (fd_step_fields _ _ _ a).2.1.symm
      · rcases fd_step_fields c.has_event_fn_ c.failure_timeout_ now a with ⟨_, he, hh⟩
        exact Or.inr ⟨he.symm, le_of_eq hh.symm⟩
  | handle_op msg recv =>
      rcases @handle_message_get? perm c msg recv i a h
        with ⟨b, hb, hbid, hp⟩
      exact ⟨b, hb, hbid, pLe_config_epoch hp, hp⟩
  | meet_op n now =>
      refine ⟨a, ?_, rfl, le_refl _, pLe_refl a⟩
      show (gossip_core.meet c n now).1.nodes_.get? i = some a
      rcases meet_nodes_cases c n now with hn | hn
      · rw [hn]
        exact h
      · rw [hn, List.get?_append (List.get?_eq_some.mp h).1]
        exact h

/-- C4 witness: the epoch-bump update applied to the table holding peer 2. -/
theorem run_epoch_pair_monotone_witness :
    onlineCore.nodes_.get? 0 = some ((onlineCore.nodes_.get? 0).getD default) ∧
    (∃ b, (gossip_core.run idPerm onlineCore
        (core_op.handle_op
          { sender := 2, type := message_type.update, timestamp := 0,
            entries := [{ id := 2, config_epoch := 1, heartbeat := 3,
                          status := node_status.online }] } 1)).1.nodes_.get? 0
        = some b ∧
      b.id = ((onlineCore.nodes_.get? 0).getD default).id ∧
      ((onlineCore.nodes_.get? 0).getD default).config_epoch ≤ b.config_epoch ∧
      pLe ((onlineCore.nodes_.get? 0).getD default) b) :=
  ⟨by decide,
    run_epoch_pair_monotone idPerm onlineCore
      (core_op.handle_op
        { sender := 2, type := message_type.update, timestamp := 0,
          entries := [{ id := 2, config_epoch := 1, heartbeat := 3,
                        status := node_status.online }] } 1) 0
      ((onlineCore.nodes_.get? 0).getD default) (by decide)⟩

/-- C5 counterexample: a leave message from a joining sender fires two
events, (online, joining) then (failed, joining); the second event's old
argument is joining although the first event shows the node held status
online immediately before that transition. -/
theorem leave_event_reports_stale_old_status :
    ((gossip_core.handle_message idPerm meetCore
        { sender := 2, type := message_type.leave, timestamp := 1 } 5).2.2.map
      (fun p => (p.1.status, p.2)))
      = [(node_status.online, node_status.joining),
         (node_status.failed, node_status.joining)] ∧
    node_status.joining ≠ node_status.online :=
  ⟨by decide, by decide⟩

/-- C5 (amended): every EVENT fired by tick, handle_message or meet fires
only when the event callback is installed and carries a new status different
from the reported old status (same-status events are impossible); but the
old argument reported in handle_message's leave path is the sender's status
at the start of the call, which after a joining-to-online promotion in the
same call is stale. -/
theorem events_require_status_change (perm : List node_view → List node_view)
    (c : gossip_core) (op : core_op) (p : node_view × node_status)
    (h : p ∈ (gossip_core.run perm c op).2.2) :
    c.has_event_fn_ = true ∧ p.1.status ≠ p.2 := by
  cases op with
  | tick_op now =>
      rw [gossip_core.run, tick_evs] at h
      exact fd_pass_evs h
  | handle_op msg recv => exact handle_message_evs h
  | meet_op n now => exact meet_evs h

/-- C5 witness: the joining event fired by meet on the fresh core. -/
theorem events_require_status_change_witness :
    ((gossip_core.run idPerm baseCore (core_op.meet_op { id := 2 } 0)).2.2.getD 0
        (default, node_status.unknown)) ∈
      (gossip_core.run idPerm baseCore (core_op.meet_op { id := 2 } 0)).2.2 ∧
    (baseCore.has_event_fn_ = true ∧
      ((gossip_core.run idPerm baseCore (core_op.meet_op { id := 2 } 0)).2.2.getD 0
        (default, node_status.unknown)).1.status ≠
      ((gossip_core.run idPerm baseCore (core_op.meet_op { id := 2 } 0)).2.2.getD 0
        (default, node_status.unknown)).2) :=
  ⟨by decide,
    events_require_status_change idPerm baseCore (core_op.meet_op { id := 2 } 0)
      _ (by decide)⟩

/-- C6 counterexample: an online peer carried in by a meet message with
suspicion_count 2 is inserted verbatim; when it times out, tick increments
the counter to 3 instead of setting it to 1. -/
theorem tick_suspicion_count_increment_not_one :
    (findById (gossip_core.handle_message idPerm baseCore
        { sender := 2, type := message_type.meet, timestamp := 0,
          entries := [{ id := 2, status := node_status.online,
                        suspicion_count := 2 }] } 0).1.nodes_ 2).map
      (fun n => (n.status, n.seen_time, n.suspicion_count))
      = some (node_status.online, 0, 2) ∧
    (findById (gossip_core.tick idPerm
        (gossip_core.handle_message idPerm baseCore
          { sender := 2, type := message_type.meet, timestamp := 0,
            entries := [{ id := 2, status := node_status.online,
                          suspicion_count := 2 }] } 0).1 2000).1.nodes_ 2).map
      (fun n => (n.status, n.suspicion_count))
      = some (node_status.suspect, 3) ∧
    (3 : Int) ≠ 1 :=
  ⟨by decide, by decide, by decide⟩

/-- C6 (amended): in tick's failure-detection pass, every online peer whose
seen_time is at least failure_timeout older than now becomes suspect with
suspicion_count incremented by one (hence equal to 1 exactly when it was 0),
last_suspected set to now, and, when the event callback is installed,
EVENT(peer, online) fired. -/
theorem tick_online_timeout_becomes_suspect (perm : List node_view → List node_view)
    (c : gossip_core) (now : time_point) (i : Nat) (n : node_view)
    (h : c.nodes_.get? i = some n) (hs : n.status = node_status.online)
    (ht : (now : Int) - (n.seen_time : Int) ≥ (c.failure_timeout_ : Int)) :
    (gossip_core.tick perm c now).1.nodes_.get? i =
      some { n with status := node_status.suspect,
                    suspicion_count := n.suspicion_count + 1,
                    last_suspected := now } ∧
    (c.has_event_fn_ = true →
      ({ n with status := node_status.suspect,
                suspicion_count := n.suspicion_count + 1,
                last_suspected := now }, node_status.online) ∈
        (gossip_core.tick perm c now).2.2) := by
  have hstep := @fd_step_online_timeout c.has_event_fn_ c.failure_timeout_ now n hs ht
  constructor
  · rw [tick_nodes, fd_pass_get?, h]
    simp [hstep]
  · intro hev
    have hmem : ({ n with status := node_status.suspect,
                          suspicion_count := n.suspicion_count + 1,
                          last_suspected := now }, node_status.online) ∈
        (fd_step c.has_event_fn_ c.failure_timeout_ now n).2 := by
      rw [hstep]
      simp [notifyEv, hev]
    rw [tick_evs]
    exact fd_pass_evs_mem h _ hmem

/-- C6 witness: the timed-out online peer of the counterexample table, with
suspicion_count 2 before the tick. -/
theorem tick_online_timeout_becomes_suspect_witness :
    (gossip_core.handle_message idPerm baseCore
        { sender := 2, type := message_type.meet, timestamp := 0,
          entries := [{ id := 2, status := node_status.online,
                        suspicion_count := 2 }] } 0).1.nodes_.get? 0
      = some (((gossip_core.handle_message idPerm baseCore
          { sender := 2, type := message_type.meet, timestamp := 0,
            entries := [{ id := 2, status := node_status.online,
                          suspicion_count := 2 }] } 0).1.nodes_.get? 0).getD default) ∧
    ((gossip_core.tick idPerm
        (gossip_core.handle_message idPerm baseCore
          { sender := 2, type := message_type.meet, timestamp := 0,
            entries := [{ id := 2, status := node_status.online,
                          suspicion_count := 2 }] } 0).1 2000).1.nodes_.get? 0 =
      some { ((gossip_core.handle_message idPerm baseCore
          { sender := 2, type := message_type.meet, timestamp := 0,
            entries := [{ id := 2, status := node_status.online,
                          suspicion_count := 2 }] } 0).1.nodes_.get? 0).getD default with
              status := node_status.suspect,
              suspicion_count := (((gossip_core.handle_message idPerm baseCore
                { sender := 2, type := message_type.meet, timestamp := 0,
                  entries := [{ id := 2, status := node_status.online,
                                suspicion_count := 2 }] } 0).1.nodes_.get? 0).getD
                  default).suspicion_count + 1,
              last_suspected := 2000 }) :=
  ⟨by decide,
    (tick_online_timeout_becomes_suspect idPerm
      (gossip_core.handle_message idPerm baseCore
        { sender := 2, type := message_type.meet, timestamp := 0,
          entries := [{ id := 2, status := node_status.online,
                        suspicion_count := 2 }] } 0).1 2000 0
      (((gossip_core.handle_message idPerm baseCore
          { sender := 2, type := message_type.meet, timestamp := 0,
            entries := [{ id := 2, status := node_status.online,
                          suspicion_count := 2 }] } 0).1.nodes_.get? 0).getD default)
      (by decide) (by decide) (by decide)).1⟩

end libgossip
